import Mathlib

/-!
The nginx auth-token module: a shallow embedding of `ngx_http_auth_token_module.c`.

The access-phase handler of the module locates a credential token in a request
header or in a cookie, asks a Redis store for the identity bound to it and then
either lets the request continue with an injected `X-User-Id` header or answers
with a redirect.

Conventions of the embedding.

* A byte is a `Nat`.  A pointer to bytes is the list of the bytes that can be read
  from the pointed address up to the end of the object the pointer points into;
  reading past that end is a `Fault`.
* `ngx_str_t` keeps both fields of the C structure: the declared length `len` and
  the pointer `data`.  The string proper is `data.take len`; whatever follows in
  `data` is what lies behind the string in the same buffer.
* C functions that may read through a missing or too short pointer return
  `Except Fault _`.
* The nginx core and the hiredis client are not part of the module.  What the
  handler needs from them (the constants, `ngx_list_push`, `strncmp`, `strlen`) is
  written out below; the Redis conversation and the cookie parser are taken as
  parameters (`Collaborators`).
* Pool allocation is taken to succeed and `ngx_log_error` output is not recorded.
-/

namespace AuthToken

/-! ## Bytes and C strings -/

/-- ASCII text as the list of its byte values. -/
def bytes (s : String) : List Nat := s.toList.map Char.toNat

/-- Ways in which the worker process can fault while running the handler. -/
inductive Fault where
  /-- a `NULL` pointer is dereferenced -/
  | null_deref
  /-- a read runs past the end of the object a pointer points into -/
  | out_of_bounds
  deriving DecidableEq, Repr

deriving instance DecidableEq for Except

/-- The C library `strlen`: the number of bytes in front of the first zero byte. -/
def strlen : List Nat → Except Fault Nat
  | [] => .error .out_of_bounds
  | c :: s =>
    if c = 0 then .ok 0
    else match strlen s with
      | .ok n => .ok (n + 1)
      | .error f => .error f

/-- The bytes a `%s` conversion copies: everything in front of the first zero byte. -/
def c_str : List Nat → Except Fault (List Nat)
  | [] => .error .out_of_bounds
  | c :: s =>
    if c = 0 then .ok []
    else match c_str s with
      | .ok k => .ok (c :: k)
      | .error f => .error f

/-- The C library `strncmp`, to which the `ngx_strncmp` macro expands: compare at
most `n` bytes, stopping behind a zero byte; the result is the difference of the
first pair of bytes that differ, or `0`. -/
def ngx_strncmp : List Nat → List Nat → Nat → Except Fault Int
  | _, _, 0 => .ok 0
  | a :: s1, b :: s2, n + 1 =>
    if a ≠ b then .ok ((a : Int) - (b : Int))
    else if a = 0 then .ok 0
    else ngx_strncmp s1 s2 n
  | _, _, _ + 1 => .error .out_of_bounds

/-! ## nginx data model -/

/-- Return code `NGX_OK` of nginx (`core/ngx_core.h`). -/
def NGX_OK : Int := 0

/-- Return code `NGX_DECLINED` of nginx (`core/ngx_core.h`): the phase handler
declines and the request continues. -/
def NGX_DECLINED : Int := -5

/-- Marker `NGX_CONF_UNSET` of nginx (`core/ngx_conf_file.h`). -/
def NGX_CONF_UNSET : Int := -1

/-- Status `NGX_HTTP_MOVED_TEMPORARILY` of nginx (`http/ngx_http_request.h`). -/
def NGX_HTTP_MOVED_TEMPORARILY : Int := 302

/-- The nginx counted string `ngx_str_t`. -/
structure ngx_str_t where
  len : Nat
  data : List Nat
  deriving DecidableEq, Repr

/-- The bytes the string stands for: the first `len` bytes at `data`. -/
def ngx_str_t.val (s : ngx_str_t) : List Nat := s.data.take s.len

/-- The macros `ngx_string` / `ngx_str_set` on a string literal: the length of the
text, and a pointer to the literal, which the compiler ends with a zero byte. -/
def ngx_string (text : String) : ngx_str_t :=
  { len := (bytes text).length, data := bytes text ++ [0] }

/-- A token given as a start position and a length inside a buffer. -/
def ngx_str_at (buf : List Nat) (start len : Nat) : ngx_str_t :=
  { len := len, data := buf.drop start }

/-- The nginx header entry `ngx_table_elt_t` (its `lowcase_key` is never touched
by the module and is left out). -/
structure ngx_table_elt_t where
  hash : Nat
  key : ngx_str_t
  value : ngx_str_t
  deriving DecidableEq, Repr

/-- One part of an nginx list: the `nelts` entries stored in `elts`. -/
structure ngx_list_part_t where
  elts : List ngx_table_elt_t
  deriving DecidableEq, Repr

/-- Field `nelts` of a list part. -/
def ngx_list_part_t.nelts (p : ngx_list_part_t) : Nat := p.elts.length

/-- The nginx list `ngx_list_t`: the first part, the chain reached through
`part->next`, and the capacity `nalloc` of every part. -/
structure ngx_list_t where
  part : ngx_list_part_t
  next : List ngx_list_part_t
  nalloc : Nat
  deriving DecidableEq, Repr

/-- The entries of a list in the order they were pushed. -/
def ngx_list_t.toList (l : ngx_list_t) : List ngx_table_elt_t :=
  l.part.elts ++ (l.next.map ngx_list_part_t.elts).flatten

/-- The shape `ngx_list_push` maintains: a part is only ever linked in to receive
an entry, so no part behind the first is empty. -/
def ngx_list_t.linked (l : ngx_list_t) : Prop :=
  ∀ p ∈ l.next, p.elts ≠ []

instance (l : ngx_list_t) : Decidable l.linked := by
  unfold ngx_list_t.linked; infer_instance

/-- Walk to the last part of the chain and store the entry there, linking in a
fresh part when the last one is full. -/
def push_last (nalloc : Nat) (e : ngx_table_elt_t) :
    ngx_list_part_t → List ngx_list_part_t → ngx_list_part_t × List ngx_list_part_t
  | p, [] =>
    if p.nelts = nalloc then (p, [{ elts := [e] }])
    else ({ elts := p.elts ++ [e] }, [])
  | p, q :: qs =>
    let (q1, qs1) := push_last nalloc e q qs
    (p, q1 :: qs1)

/-- The nginx core `ngx_list_push` followed by the caller filling in the slot it
returns: the entry lands behind all earlier entries. -/
def ngx_list_push (l : ngx_list_t) (e : ngx_table_elt_t) : ngx_list_t :=
  let (p, ps) := push_last l.nalloc e l.part l.next
  { part := p, next := ps, nalloc := l.nalloc }

/-- Main configuration `auth_token_main_conf_t`. -/
structure auth_token_main_conf_t where
  redis_host : ngx_str_t
  redis_port : Int
  deriving DecidableEq, Repr

/-- Location configuration `auth_token_loc_conf_t`. -/
structure auth_token_loc_conf_t where
  enabled : Int
  redirect_location : ngx_str_t
  cookie_name : ngx_str_t
  header_name : ngx_str_t
  deriving DecidableEq, Repr

/-- The part of `ngx_http_headers_in_t` the module reads and writes. -/
structure ngx_http_headers_in_t where
  headers : ngx_list_t
  cookies : List ngx_table_elt_t
  deriving DecidableEq, Repr

/-- The part of `ngx_http_headers_out_t` the module writes. -/
structure ngx_http_headers_out_t where
  headers : ngx_list_t
  deriving DecidableEq, Repr

/-- The part of `ngx_http_request_t` the module uses.  `main_internal` is the bit
`r->main->internal`; `loc_conf` and `main_conf` are what
`ngx_http_get_module_loc_conf` and `ngx_http_get_module_main_conf` return for the
request. -/
structure ngx_http_request_t where
  main_internal : Bool
  headers_in : ngx_http_headers_in_t
  headers_out : ngx_http_headers_out_t
  loc_conf : auth_token_loc_conf_t
  main_conf : auth_token_main_conf_t
  deriving DecidableEq, Repr

/-! ## The Redis client -/

/-- Reply type `REDIS_REPLY_STRING` of hiredis. -/
def REDIS_REPLY_STRING : Int := 1

/-- Reply type `REDIS_REPLY_NIL` of hiredis. -/
def REDIS_REPLY_NIL : Int := 4

/-- Reply type `REDIS_REPLY_ERROR` of hiredis. -/
def REDIS_REPLY_ERROR : Int := 6

/-- The hiredis connection object; `err` is non-zero when connecting failed. -/
structure redisContext where
  err : Int
  deriving DecidableEq, Repr

/-- The hiredis reply object: its type, the byte count `len` and the pointer
`str`, which is `NULL` (`none`) for a nil reply. -/
structure redisReply where
  type : Int
  len : Nat
  str : Option (List Nat)
  deriving DecidableEq, Repr

/-- What hiredis hands back for a stored value `v`: a string reply whose buffer
holds `v` followed by a zero byte. -/
def string_reply (v : List Nat) : redisReply :=
  { type := REDIS_REPLY_STRING, len := v.length, str := some (v ++ [0]) }

/-- What hiredis hands back when the key does not exist. -/
def nil_reply : redisReply :=
  { type := REDIS_REPLY_NIL, len := 0, str := none }

/-- What hiredis hands back when the server answers with an error line. -/
def error_reply (msg : List Nat) : redisReply :=
  { type := REDIS_REPLY_ERROR, len := msg.length, str := some (msg ++ [0]) }

/-- The code the handler calls but the module does not contain.
`redisConnect host port` is `none` for a `NULL` context.  `redisCommand c key` is
the result of `redisCommand(c, "GET %s", key)` on a context that is not `NULL`:
`none` for a `NULL` reply.  `ngx_http_parse_multi_header_lines cookies name value`
returns the index of the `Cookie` line it found the name in, or `NGX_DECLINED`,
together with the content of `*value` afterwards. -/
structure Collaborators where
  redisConnect : List Nat → Int → Option redisContext
  redisCommand : redisContext → List Nat → Option redisReply
  ngx_http_parse_multi_header_lines :
    List ngx_table_elt_t → ngx_str_t → ngx_str_t → Int × ngx_str_t

/-! ## The module -/

/-- Result of `lookup_user`: the return code, `*user_id` afterwards, and the keys
of the `GET` commands handed to the Redis client. -/
structure lookup_result where
  rc : Int
  user_id : ngx_str_t
  gets : List (List Nat)
  deriving DecidableEq, Repr

/-- The function `lookup_user` (lines 27-39).  The key is read by `%s` from
`auth_token->data`; `auth_token->len` is not used.  `redisCommand` dereferences
its context, and the reply is dereferenced without a check. -/
def lookup_user (env : Collaborators) (conf : auth_token_main_conf_t)
    (auth_token user_id : ngx_str_t) : Except Fault lookup_result :=
  let context := env.redisConnect conf.redis_host.data conf.redis_port
  match context with
  | none => .error .null_deref
  | some c =>
    match c_str auth_token.data with
    | .error f => .error f
    | .ok key =>
      match env.redisCommand c key with
      | none => .error .null_deref
      | some reply =>
        if reply.type = REDIS_REPLY_NIL then
          .ok { rc := NGX_DECLINED, user_id := user_id, gets := [key] }
        else
          match reply.str with
          | none => .error .null_deref
          | some str =>
            match strlen str with
            | .error f => .error f
            | .ok n =>
              .ok { rc := NGX_OK, user_id := { len := n, data := str }, gets := [key] }

/-- Result of the handler: the return code, the request afterwards, and the keys of
the `GET` commands handed to the Redis client. -/
structure handler_result where
  rc : Int
  r : ngx_http_request_t
  gets : List (List Nat)
  deriving DecidableEq, Repr

/-- The function `redirect` (lines 42-52). -/
def redirect (r : ngx_http_request_t) (location : ngx_str_t) : Int × ngx_http_request_t :=
  let h : ngx_table_elt_t := { hash := 1, key := ngx_string "Location", value := location }
  (NGX_HTTP_MOVED_TEMPORARILY,
    { r with headers_out := { r.headers_out with
        headers := ngx_list_push r.headers_out.headers h } })

/-- The function `append_user_id` (lines 55-63). -/
def append_user_id (r : ngx_http_request_t) (user_id : ngx_str_t) : ngx_http_request_t :=
  let h : ngx_table_elt_t := { hash := 1, key := ngx_string "X-User-Id", value := user_id }
  { r with headers_in := { r.headers_in with
      headers := ngx_list_push r.headers_in.headers h } }

/-- The test of line 87 on one header entry. -/
def key_matches (location_conf : auth_token_loc_conf_t) (h : ngx_table_elt_t) :
    Except Fault Bool :=
  match ngx_strncmp h.key.data location_conf.header_name.data h.key.len with
  | .error f => .error f
  | .ok d => .ok (d == 0)

/-- Result of a search: the return code and `*token` afterwards. -/
structure search_result where
  rc : Int
  token : ngx_str_t
  deriving DecidableEq, Repr

/-- The loop of `search_headers` inside one part, from the current index on:
`elts` are the entries `h[i], ..., h[nelts-1]`, and `after` is what the loop does
once `i >= part->nelts`. -/
def search_part (location_conf : auth_token_loc_conf_t)
    (after : Except Fault search_result) :
    List ngx_table_elt_t → Except Fault search_result
  | [] => after
  | h :: elts =>
    match key_matches location_conf h with
    | .error f => .error f
    | .ok true => .ok { rc := NGX_OK, token := { len := h.value.len, data := h.value.data } }
    | .ok false => search_part location_conf after elts

/-- The loop of `search_headers` at `i >= part->nelts`: stop when `part->next` is
`NULL`; otherwise step to the next part, set `i = 0` and test `h[0]` without
looking at the new part's `nelts`. -/
def search_next (location_conf : auth_token_loc_conf_t) (token : ngx_str_t) :
    List ngx_list_part_t → Except Fault search_result
  | [] => .ok { rc := NGX_DECLINED, token := token }
  | p :: ps =>
    match p.elts with
    | [] => .error .out_of_bounds
    | h :: elts =>
      match key_matches location_conf h with
      | .error f => .error f
      | .ok true => .ok { rc := NGX_OK, token := { len := h.value.len, data := h.value.data } }
      | .ok false => search_part location_conf (search_next location_conf token ps) elts

/-- The function `search_headers` (lines 66-95).  It only reads the request. -/
def search_headers (r : ngx_http_request_t) (location_conf : auth_token_loc_conf_t)
    (token : ngx_str_t) : Except Fault (search_result × ngx_http_request_t) :=
  match search_part location_conf
      (search_next location_conf token r.headers_in.headers.next)
      r.headers_in.headers.part.elts with
  | .error f => .error f
  | .ok s => .ok (s, r)

/-- The function `header_lookup` (lines 98-108). -/
def header_lookup (r : ngx_http_request_t) (location_conf : auth_token_loc_conf_t)
    (token : ngx_str_t) : Except Fault (search_result × ngx_http_request_t) :=
  match search_headers r location_conf token with
  | .error f => .error f
  | .ok (result, r1) =>
    if result.rc = NGX_DECLINED then .ok ({ result with rc := NGX_DECLINED }, r1)
    else .ok ({ result with rc := NGX_OK }, r1)

/-- The function `cookie_lookup` (lines 111-121). -/
def cookie_lookup (env : Collaborators) (r : ngx_http_request_t)
    (location_conf : auth_token_loc_conf_t) (token : ngx_str_t) :
    Except Fault (search_result × ngx_http_request_t) :=
  let (cookie_location, token1) :=
    env.ngx_http_parse_multi_header_lines r.headers_in.cookies location_conf.cookie_name token
  if cookie_location = NGX_DECLINED then .ok ({ rc := NGX_DECLINED, token := token1 }, r)
  else .ok ({ rc := NGX_OK, token := token1 }, r)

/-- The content of a local `ngx_str_t` before anything is stored in it. -/
def unset : ngx_str_t := { len := 0, data := [] }

/-- The function `ngx_http_auth_token_handler` (lines 124-162). -/
def ngx_http_auth_token_handler (env : Collaborators) (r : ngx_http_request_t) :
    Except Fault handler_result :=
  if r.main_internal then .ok { rc := NGX_DECLINED, r := r, gets := [] }
  else
    let location_conf := r.loc_conf
    if location_conf.enabled = 0 ∨ location_conf.enabled = NGX_CONF_UNSET then
      .ok { rc := NGX_DECLINED, r := r, gets := [] }
    else
      let main_conf := r.main_conf
      let search :=
        if location_conf.header_name.len ≠ 0 then header_lookup r location_conf unset
        else cookie_lookup env r location_conf unset
      match search with
      | .error f => .error f
      | .ok (found, r1) =>
        if found.rc = NGX_DECLINED then
          let (rc, r2) := redirect r1 location_conf.redirect_location
          .ok { rc := rc, r := r2, gets := [] }
        else
          match lookup_user env main_conf found.token unset with
          | .error f => .error f
          | .ok looked =>
            if looked.rc = NGX_DECLINED then
              let (rc, r2) := redirect r1 location_conf.redirect_location
              .ok { rc := rc, r := r2, gets := looked.gets }
            else
              .ok { rc := NGX_DECLINED, r := append_user_id r1 looked.user_id,
                    gets := looked.gets }

/-- Lines 141-145 of the handler: the header path when a header name is
configured, the cookie path otherwise. -/
def locate (env : Collaborators) (r : ngx_http_request_t) :
    Except Fault (search_result × ngx_http_request_t) :=
  if r.loc_conf.header_name.len ≠ 0 then header_lookup r r.loc_conf unset
  else cookie_lookup env r r.loc_conf unset

/-! ## Vocabulary of the statements -/

/-- An nginx string that is also a C string: a zero byte sits right behind its
`len` bytes and none inside them.  nginx stores request header names, request
header values and configuration values this way. -/
def ngx_str_t.terminated (s : ngx_str_t) : Prop :=
  s.data[s.len]? = some 0 ∧ 0 ∉ s.val

instance (s : ngx_str_t) : Decidable s.terminated := by
  unfold ngx_str_t.terminated; infer_instance

/-- An nginx string whose `len` bytes lie inside the object `data` points into. -/
def ngx_str_t.in_bounds (s : ngx_str_t) : Prop := s.len ≤ s.data.length

instance (s : ngx_str_t) : Decidable s.in_bounds := by
  unfold ngx_str_t.in_bounds; infer_instance

/-- The comparison of line 87 comes out equal on the entry: `ngx_strncmp` over the
entry's own key length returns `0`. -/
def compares_equal (conf : auth_token_loc_conf_t) (h : ngx_table_elt_t) : Prop :=
  ngx_strncmp h.key.data conf.header_name.data h.key.len = .ok 0

instance (conf : auth_token_loc_conf_t) (h : ngx_table_elt_t) :
    Decidable (compares_equal conf h) := by
  unfold compares_equal; infer_instance

/-- The module is switched on for the scope: `enabled` is neither `0` nor unset. -/
def auth_token_loc_conf_t.on (conf : auth_token_loc_conf_t) : Prop :=
  conf.enabled ≠ 0 ∧ conf.enabled ≠ NGX_CONF_UNSET

instance (conf : auth_token_loc_conf_t) : Decidable conf.on := by
  unfold auth_token_loc_conf_t.on; infer_instance

/-- The request headers as nginx lays them out for the search: the list has the
shape `ngx_list_push` builds, the configured header name is a C string, and every
header key lies inside its buffer. -/
def headers_well_formed (r : ngx_http_request_t) (conf : auth_token_loc_conf_t) : Prop :=
  r.headers_in.headers.linked ∧ 0 ∈ conf.header_name.data ∧
    ∀ h ∈ r.headers_in.headers.toList, h.key.in_bounds

instance (r : ngx_http_request_t) (conf : auth_token_loc_conf_t) :
    Decidable (headers_well_formed r conf) := by
  unfold headers_well_formed; infer_instance

/-- The entry `h` is the first of `l`, in received order, to compare equal. -/
def first_match (conf : auth_token_loc_conf_t) (l : List ngx_table_elt_t)
    (h : ngx_table_elt_t) : Prop :=
  ∃ pre post, l = pre ++ h :: post ∧ (∀ x ∈ pre, ¬ compares_equal conf x) ∧
    compares_equal conf h

/-- The header entry carries the given name, byte for byte. -/
def named (name : String) (h : ngx_table_elt_t) : Bool := h.key.val == bytes name

/-- The identity `lookup_user` reports when the store holds `v`: a pointer to the
reply buffer (`v` and the closing zero byte) with the length `strlen` finds there. -/
def resolved_identity (v : List Nat) : ngx_str_t :=
  { len := (v.takeWhile (fun b => b ≠ 0)).length, data := v ++ [0] }

/-- The search the handler runs on the request locates the token `t`: with a
header name configured, `t` is the value of the first header entry that compares
equal; without one, `t` is the value the cookie parser reports. -/
def token_located (env : Collaborators) (r : ngx_http_request_t) (t : ngx_str_t) : Prop :=
  (r.loc_conf.header_name.len ≠ 0 ∧ headers_well_formed r r.loc_conf ∧
    ∃ h, first_match r.loc_conf r.headers_in.headers.toList h ∧ t = h.value) ∨
  (r.loc_conf.header_name.len = 0 ∧ ∃ i, i ≠ NGX_DECLINED ∧
    env.ngx_http_parse_multi_header_lines r.headers_in.cookies r.loc_conf.cookie_name unset
      = (i, t))

/-- The search the handler runs on the request locates no token: with a header
name configured, no header entry compares equal; without one, the cookie parser
reports `NGX_DECLINED`. -/
def no_token_located (env : Collaborators) (r : ngx_http_request_t) : Prop :=
  (r.loc_conf.header_name.len ≠ 0 ∧ headers_well_formed r r.loc_conf ∧
    ∀ x ∈ r.headers_in.headers.toList, ¬ compares_equal r.loc_conf x) ∨
  (r.loc_conf.header_name.len = 0 ∧
    (env.ngx_http_parse_multi_header_lines r.headers_in.cookies r.loc_conf.cookie_name
      unset).1 = NGX_DECLINED)

/-- The store answers the `GET` issued for the token `t` with "no such key". -/
def store_has_no_key (env : Collaborators) (conf : auth_token_main_conf_t)
    (t : ngx_str_t) : Prop :=
  ∃ c key reply, env.redisConnect conf.redis_host.data conf.redis_port = some c ∧
    c_str t.data = .ok key ∧ env.redisCommand c key = some reply ∧
    reply.type = REDIS_REPLY_NIL

/-- The store gives an answer the handler can read: the connection is set up, and
every `GET` is answered by a nil reply or by a reply whose `str` points to a zero
ended buffer. -/
def store_answers (env : Collaborators) (conf : auth_token_main_conf_t) : Prop :=
  ∃ c, env.redisConnect conf.redis_host.data conf.redis_port = some c ∧
    ∀ key, ∃ reply, env.redisCommand c key = some reply ∧
      (reply.type = REDIS_REPLY_NIL ∨ ∃ str, reply.str = some str ∧ 0 ∈ str)

/-- What the handler reads of the request lies inside the request's buffers: on the
header path the headers are well formed and every header value is followed by a
zero byte somewhere in its buffer; on the cookie path the same holds for the value
the cookie parser reports. -/
def tokens_readable (env : Collaborators) (r : ngx_http_request_t) : Prop :=
  (r.loc_conf.header_name.len ≠ 0 →
    headers_well_formed r r.loc_conf ∧
      ∀ h ∈ r.headers_in.headers.toList, 0 ∈ h.value.data) ∧
  (r.loc_conf.header_name.len = 0 →
    (env.ngx_http_parse_multi_header_lines r.headers_in.cookies
        r.loc_conf.cookie_name unset).1 ≠ NGX_DECLINED →
    0 ∈ (env.ngx_http_parse_multi_header_lines r.headers_in.cookies
        r.loc_conf.cookie_name unset).2.data)

/-! ## Example requests and stores -/

/-- A header entry as nginx stores it for the header line `name: value`. -/
def header_line (name value : String) : ngx_table_elt_t :=
  { hash := 1, key := ngx_string name, value := ngx_string value }

/-- A list with the given parts. -/
def list_of (nalloc : Nat) (first : List ngx_table_elt_t)
    (more : List (List ngx_table_elt_t)) : ngx_list_t :=
  { part := { elts := first }, next := more.map (fun es => { elts := es }), nalloc := nalloc }

/-- Location configuration of the walkthroughs: the module is switched on, the
token travels in the header `X-Auth-Token`, denials go to `/login`. -/
def header_conf : auth_token_loc_conf_t :=
  { enabled := 1, redirect_location := ngx_string "/login",
    cookie_name := ngx_string "", header_name := ngx_string "X-Auth-Token" }

/-- Location configuration with the token in the cookie `session`. -/
def cookie_conf : auth_token_loc_conf_t :=
  { enabled := 1, redirect_location := ngx_string "/login",
    cookie_name := ngx_string "session", header_name := ngx_string "" }

/-- Main configuration of the walkthroughs. -/
def redis_conf : auth_token_main_conf_t :=
  { redis_host := ngx_string "127.0.0.1", redis_port := 6379 }

/-- A request as it reaches the access phase: the received header lines, no
response header yet. -/
def request_of (internal : Bool) (headers : ngx_list_t) (cookies : List ngx_table_elt_t)
    (conf : auth_token_loc_conf_t) : ngx_http_request_t :=
  { main_internal := internal,
    headers_in := { headers := headers, cookies := cookies },
    headers_out := { headers := list_of 20 [] [] },
    loc_conf := conf, main_conf := redis_conf }

/-- A reachable Redis server with the given keys and values, and a request
without cookies. -/
def redis_with (kv : List (List Nat × List Nat)) : Collaborators where
  redisConnect := fun _ _ => some { err := 0 }
  redisCommand := fun _ key =>
    match kv.lookup key with
    | some v => some (string_reply v)
    | none => some nil_reply
  ngx_http_parse_multi_header_lines := fun _ _ value => (NGX_DECLINED, value)

/-- A reachable Redis server with the given keys and values, for a request in
whose first `Cookie` line the cookie parser finds the value `token`. -/
def redis_with_cookie (kv : List (List Nat × List Nat)) (token : ngx_str_t) :
    Collaborators where
  redisConnect := fun _ _ => some { err := 0 }
  redisCommand := fun _ key =>
    match kv.lookup key with
    | some v => some (string_reply v)
    | none => some nil_reply
  ngx_http_parse_multi_header_lines := fun _ _ _ => (0, token)

/-- A Redis server that refuses the connection: hiredis hands out a context with
`err` set, and every command on it yields a `NULL` reply. -/
def redis_refusing : Collaborators where
  redisConnect := fun _ _ => some { err := 1 }
  redisCommand := fun _ _ => none
  ngx_http_parse_multi_header_lines := fun _ _ value => (NGX_DECLINED, value)

/-- A host on which not even the connection object can be set up: `redisConnect`
returns `NULL`. -/
def redis_absent : Collaborators where
  redisConnect := fun _ _ => none
  redisCommand := fun _ _ => none
  ngx_http_parse_multi_header_lines := fun _ _ value => (NGX_DECLINED, value)

/-- A reachable Redis server that answers every `GET` with the error line `msg`. -/
def redis_erring (msg : String) : Collaborators where
  redisConnect := fun _ _ => some { err := 0 }
  redisCommand := fun _ _ => some (error_reply (bytes msg))
  ngx_http_parse_multi_header_lines := fun _ _ value => (NGX_DECLINED, value)

/-- Scenario A of the specification: the token `abc123` in the header
`X-Auth-Token`. -/
def scenario_a : ngx_http_request_t :=
  request_of false
    (list_of 20 [header_line "Host" "example.org", header_line "X-Auth-Token" "abc123"] [])
    [] header_conf

/-- Scenario B of the specification: no `X-Auth-Token` header. -/
def scenario_b : ngx_http_request_t :=
  request_of false (list_of 20 [header_line "Host" "example.org"] []) [] header_conf

/-- The `Cookie` line of scenario C followed by a second cookie. -/
def cookie_line : List Nat := bytes "session=xyz; other=1" ++ [0]

/-- Scenario C of the specification with a second cookie behind the session
cookie. -/
def scenario_c : ngx_http_request_t :=
  request_of false (list_of 20 [header_line "Host" "example.org"] [])
    [{ hash := 1, key := ngx_string "Cookie",
       value := { len := 20, data := cookie_line } }]
    cookie_conf

/-- A request that arrives with an `X-User-Id` header of the client's making. -/
def forged_request : ngx_http_request_t :=
  request_of false
    (list_of 20 [header_line "X-User-Id" "admin", header_line "X-Auth-Token" "abc123"] [])
    [] header_conf

/-- Header lines spread over two list parts; two of them carry the token name. -/
def two_part_request : ngx_http_request_t :=
  request_of false
    (list_of 2 [header_line "Host" "example.org", header_line "Accept" "text/html"]
      [[header_line "X-Auth-Token" "abc123", header_line "X-Auth-Token" "other"]])
    [] header_conf

/-- A request whose only header has a name that is the front part of the
configured `X-Auth-Token`. -/
def short_key_request : ngx_http_request_t :=
  request_of false (list_of 20 [header_line "X-Auth" "abc123"] []) [] header_conf

/-- A request whose only header has a name that starts with the configured name
`X-Auth` and goes on. -/
def long_key_request : ngx_http_request_t :=
  request_of false (list_of 20 [header_line "X-Auth-Token" "abc123"] []) []
    { header_conf with header_name := ngx_string "X-Auth" }

/-! ## Lists -/

theorem push_last_flatten (nalloc : Nat) (e : ngx_table_elt_t) (p : ngx_list_part_t)
    (ps : List ngx_list_part_t) :
    (push_last nalloc e p ps).1.elts
        ++ ((push_last nalloc e p ps).2.map ngx_list_part_t.elts).flatten
      = p.elts ++ (ps.map ngx_list_part_t.elts).flatten ++ [e] := by
  induction ps generalizing p with
  | nil =>
    unfold push_last
    split <;> simp
  | cons q qs ih =>
    have h := ih q
    simp only [push_last, List.map_cons, List.flatten_cons]
    simp only [List.append_assoc] at h ⊢
    rw [h]

theorem ngx_list_push_toList (l : ngx_list_t) (e : ngx_table_elt_t) :
    (ngx_list_push l e).toList = l.toList ++ [e] := by
  simp only [ngx_list_push, ngx_list_t.toList]
  exact push_last_flatten l.nalloc e l.part l.next

theorem push_last_fst_ne_nil (nalloc : Nat) (e : ngx_table_elt_t) (p : ngx_list_part_t)
    (ps : List ngx_list_part_t) (hp : p.elts ≠ []) :
    (push_last nalloc e p ps).1.elts ≠ [] := by
  cases ps with
  | nil =>
    unfold push_last
    split
    · exact hp
    · simp
  | cons q qs => simpa [push_last] using hp

theorem push_last_snd_ne_nil (nalloc : Nat) (e : ngx_table_elt_t) (p : ngx_list_part_t)
    (ps : List ngx_list_part_t) (hps : ∀ q ∈ ps, q.elts ≠ []) :
    ∀ q ∈ (push_last nalloc e p ps).2, q.elts ≠ [] := by
  induction ps generalizing p with
  | nil =>
    unfold push_last
    split <;> simp
  | cons q qs ih =>
    have hq : q.elts ≠ [] := hps q (List.mem_cons_self _ _)
    have hqs : ∀ x ∈ qs, x.elts ≠ [] := fun x hx => hps x (List.mem_cons_of_mem _ hx)
    intro x hx
    simp only [push_last, List.mem_cons] at hx
    rcases hx with rfl | hx
    · exact push_last_fst_ne_nil nalloc e q qs hq
    · exact ih q hqs x hx

/-- Pushing an entry keeps the shape the header search relies on. -/
theorem ngx_list_push_linked (l : ngx_list_t) (e : ngx_table_elt_t) (hl : l.linked) :
    (ngx_list_push l e).linked := by
  unfold ngx_list_push ngx_list_t.linked
  exact push_last_snd_ne_nil l.nalloc e l.part l.next hl

theorem ngx_list_push_ne (l : ngx_list_t) (e : ngx_table_elt_t) :
    ngx_list_push l e ≠ l := by
  intro h
  have h1 := congrArg (fun x => x.toList.length) h
  simp [ngx_list_push_toList] at h1

theorem redirect_toList (r : ngx_http_request_t) (location : ngx_str_t) :
    (redirect r location).2.headers_out.headers.toList
      = r.headers_out.headers.toList
        ++ [{ hash := 1, key := ngx_string "Location", value := location }] := by
  simp [redirect, ngx_list_push_toList]

theorem append_user_id_toList (r : ngx_http_request_t) (user_id : ngx_str_t) :
    (append_user_id r user_id).headers_in.headers.toList
      = r.headers_in.headers.toList
        ++ [{ hash := 1, key := ngx_string "X-User-Id", value := user_id }] := by
  simp [append_user_id, ngx_list_push_toList]

theorem first_or_none {α : Type} (p : α → Prop) [DecidablePred p] (l : List α) :
    (∃ pre h post, l = pre ++ h :: post ∧ (∀ x ∈ pre, ¬ p x) ∧ p h) ∨ (∀ x ∈ l, ¬ p x) := by
  induction l with
  | nil => right; simp
  | cons a t ih =>
    by_cases ha : p a
    · left; exact ⟨[], a, t, rfl, by simp, ha⟩
    · rcases ih with ⟨pre, h, post, rfl, hpre, hh⟩ | hn
      · left
        refine ⟨a :: pre, h, post, rfl, ?_, hh⟩
        intro x hx
        rcases List.mem_cons.mp hx with rfl | hx
        · exact ha
        · exact hpre x hx
      · right
        intro x hx
        rcases List.mem_cons.mp hx with rfl | hx
        · exact ha
        · exact hn x hx

/-! ## C strings -/

theorem ngx_strncmp_defined (n : Nat) : ∀ (s1 s2 : List Nat), 0 ∈ s2 → n ≤ s1.length →
    ∃ d, ngx_strncmp s1 s2 n = .ok d := by
  induction n with
  | zero => intro s1 s2 _ _; exact ⟨0, by simp [ngx_strncmp]⟩
  | succ n ih =>
    intro s1 s2 h0 hlen
    cases s1 with
    | nil => simp at hlen
    | cons a s1 =>
      cases s2 with
      | nil => simp at h0
      | cons b s2 =>
        by_cases hab : a = b
        · subst hab
          by_cases ha : a = 0
          · exact ⟨0, by simp [ngx_strncmp, ha]⟩
          · have h0' : 0 ∈ s2 := by
              rcases List.mem_cons.mp h0 with h | h
              · exact absurd h.symm ha
              · exact h
            obtain ⟨d, hd⟩ := ih s1 s2 h0' (by simpa using hlen)
            exact ⟨d, by simp [ngx_strncmp, ha, hd]⟩
        · exact ⟨(a : Int) - (b : Int), by simp [ngx_strncmp, hab]⟩

theorem ngx_strncmp_eq_zero_iff (m : Nat) : ∀ (s1 n rest : List Nat),
    m ≤ s1.length → 0 ∉ s1.take m → 0 ∉ n →
    (ngx_strncmp s1 (n ++ 0 :: rest) m = .ok 0 ↔ s1.take m <+: n) := by
  induction m with
  | zero => intro s1 n rest _ _ _; simp [ngx_strncmp]
  | succ m ih =>
    intro s1 n rest hlen hz hn
    cases s1 with
    | nil => simp at hlen
    | cons a s1 =>
      have ha : a ≠ 0 := by
        intro h; apply hz; simp [h]
      have hz' : 0 ∉ s1.take m := by
        intro h; apply hz; simp [h]
      cases n with
      | nil =>
        have : (a : Int) ≠ 0 := by exact_mod_cast ha
        simp [ngx_strncmp, ha, this]
      | cons b n =>
        have hn' : 0 ∉ n := by
          intro h; apply hn; simp [h]
        by_cases hab : a = b
        · subst hab
          have := ih s1 n rest (by simpa using hlen) hz' hn'
          simp [ngx_strncmp, ha, this, List.cons_prefix_cons]
        · have : (a : Int) - (b : Int) ≠ 0 := by
            intro h; apply hab; omega
          simp [ngx_strncmp, hab, this, List.cons_prefix_cons]

theorem terminated_split (s : ngx_str_t) (hs : s.terminated) :
    s.data = s.val ++ 0 :: s.data.drop (s.len + 1) := by
  obtain ⟨h1, _⟩ := hs
  have hlt : s.len < s.data.length := by
    by_contra hge
    rw [List.getElem?_eq_none (by omega)] at h1
    exact absurd h1 (by simp)
  have h2 : s.data[s.len] = 0 := by
    rw [List.getElem?_eq_getElem hlt] at h1
    exact Option.some.inj h1
  conv_lhs => rw [← List.take_append_drop s.len s.data]
  rw [List.drop_eq_getElem_cons hlt, h2]
  rfl

theorem c_str_terminated (k rest : List Nat) (hk : 0 ∉ k) :
    c_str (k ++ 0 :: rest) = .ok k := by
  induction k with
  | nil => simp [c_str]
  | cons a k ih =>
    have ha : a ≠ 0 := by intro h; apply hk; simp [h]
    have hk' : 0 ∉ k := by intro h; apply hk; simp [h]
    simp [c_str, ha, ih hk']

theorem c_str_of_terminated (t : ngx_str_t) (ht : t.terminated) : c_str t.data = .ok t.val := by
  rw [terminated_split t ht]
  exact c_str_terminated t.val (t.data.drop (t.len + 1)) ht.2

theorem c_str_defined (s : List Nat) (h0 : 0 ∈ s) : ∃ k, c_str s = .ok k := by
  induction s with
  | nil => simp at h0
  | cons a s ih =>
    by_cases ha : a = 0
    · exact ⟨[], by simp [c_str, ha]⟩
    · have h0' : 0 ∈ s := by
        rcases List.mem_cons.mp h0 with h | h
        · exact absurd h.symm ha
        · exact h
      obtain ⟨k, hk⟩ := ih h0'
      exact ⟨a :: k, by simp [c_str, ha, hk]⟩

theorem strlen_zero_ended (v : List Nat) :
    strlen (v ++ [0]) = .ok (v.takeWhile (fun b => b ≠ 0)).length := by
  induction v with
  | nil => simp [strlen]
  | cons a v ih =>
    by_cases ha : a = 0
    · simp [strlen, ha]
    · simp [strlen, ha, ih]

theorem strlen_defined (s : List Nat) (h0 : 0 ∈ s) : ∃ n, strlen s = .ok n := by
  induction s with
  | nil => simp at h0
  | cons a s ih =>
    by_cases ha : a = 0
    · exact ⟨0, by simp [strlen, ha]⟩
    · have h0' : 0 ∈ s := by
        rcases List.mem_cons.mp h0 with h | h
        · exact absurd h.symm ha
        · exact h
      obtain ⟨n, hn⟩ := ih h0'
      exact ⟨n + 1, by simp [strlen, ha, hn]⟩

theorem take_takeWhile_append (p : Nat → Bool) (v rest : List Nat) :
    (v ++ rest).take (v.takeWhile p).length = v.takeWhile p := by
  induction v with
  | nil => simp
  | cons a v ih =>
    rw [List.takeWhile_cons]
    cases hp : p a with
    | true => simp [ih]
    | false => simp

theorem resolved_identity_val (v : List Nat) :
    (resolved_identity v).val = v.takeWhile (fun b => b ≠ 0) :=
  take_takeWhile_append _ v [0]

/-! ## The header search -/

theorem search_part_append (conf : auth_token_loc_conf_t) (after : Except Fault search_result)
    (a b : List ngx_table_elt_t) :
    search_part conf after (a ++ b) = search_part conf (search_part conf after b) a := by
  induction a with
  | nil => rfl
  | cons h t ih =>
    simp only [List.cons_append, search_part]
    split <;> simp_all

theorem search_next_flatten (conf : auth_token_loc_conf_t) (token : ngx_str_t)
    (ps : List ngx_list_part_t) (hl : ∀ p ∈ ps, p.elts ≠ []) :
    search_next conf token ps
      = search_part conf (.ok { rc := NGX_DECLINED, token := token })
          (ps.map ngx_list_part_t.elts).flatten := by
  induction ps with
  | nil => rfl
  | cons p ps ih =>
    have hp : p.elts ≠ [] := hl p (List.mem_cons_self _ _)
    have ih1 := ih (fun q hq => hl q (List.mem_cons_of_mem _ hq))
    simp only [List.map_cons, List.flatten_cons, search_part_append]
    rw [← ih1]
    cases hpe : p.elts with
    | nil => exact absurd hpe hp
    | cons h es =>
      simp only [search_next, hpe, search_part]

theorem search_headers_flat (r : ngx_http_request_t) (conf : auth_token_loc_conf_t)
    (token : ngx_str_t) (hl : r.headers_in.headers.linked) :
    search_headers r conf token
      = match search_part conf (.ok { rc := NGX_DECLINED, token := token })
            r.headers_in.headers.toList with
        | .error f => .error f
        | .ok s => .ok (s, r) := by
  simp only [search_headers, ngx_list_t.toList, search_part_append]
  rw [search_next_flatten conf token _ hl]

theorem key_matches_true (conf : auth_token_loc_conf_t) (h : ngx_table_elt_t)
    (hm : compares_equal conf h) : key_matches conf h = .ok true := by
  unfold compares_equal at hm
  simp [key_matches, hm]

theorem key_matches_false (conf : auth_token_loc_conf_t) (h : ngx_table_elt_t)
    (hd : ∃ d, ngx_strncmp h.key.data conf.header_name.data h.key.len = .ok d)
    (hm : ¬ compares_equal conf h) : key_matches conf h = .ok false := by
  obtain ⟨d, hd⟩ := hd
  unfold compares_equal at hm
  have : d ≠ 0 := by
    intro h0; apply hm; rw [hd, h0]
  simp [key_matches, hd, this]

theorem key_matches_true_iff (conf : auth_token_loc_conf_t) (h : ngx_table_elt_t) :
    key_matches conf h = .ok true ↔ compares_equal conf h := by
  unfold compares_equal key_matches
  cases hc : ngx_strncmp h.key.data conf.header_name.data h.key.len with
  | error f => simp
  | ok d => simp

theorem key_matches_defined (conf : auth_token_loc_conf_t) (h : ngx_table_elt_t)
    (hn : 0 ∈ conf.header_name.data) (hk : h.key.in_bounds) :
    key_matches conf h = .ok true ∨ key_matches conf h = .ok false := by
  by_cases hm : compares_equal conf h
  · exact Or.inl (key_matches_true conf h hm)
  · exact Or.inr (key_matches_false conf h
      (ngx_strncmp_defined h.key.len h.key.data conf.header_name.data hn hk) hm)

theorem search_part_first (conf : auth_token_loc_conf_t) (after : Except Fault search_result)
    (pre post : List ngx_table_elt_t) (h : ngx_table_elt_t)
    (hpre : ∀ x ∈ pre, key_matches conf x = .ok false)
    (hh : key_matches conf h = .ok true) :
    search_part conf after (pre ++ h :: post)
      = .ok { rc := NGX_OK, token := { len := h.value.len, data := h.value.data } } := by
  induction pre with
  | nil => simp [search_part, hh]
  | cons x xs ih =>
    have hx := hpre x (List.mem_cons_self _ _)
    simp only [List.cons_append, search_part, hx]
    exact ih (fun y hy => hpre y (List.mem_cons_of_mem _ hy))

theorem search_part_none (conf : auth_token_loc_conf_t) (after : Except Fault search_result)
    (l : List ngx_table_elt_t) (hl : ∀ x ∈ l, key_matches conf x = .ok false) :
    search_part conf after l = after := by
  induction l with
  | nil => rfl
  | cons x xs ih =>
    have hx := hl x (List.mem_cons_self _ _)
    simp only [search_part, hx]
    exact ih (fun y hy => hl y (List.mem_cons_of_mem _ hy))

theorem search_headers_of_first_match (r : ngx_http_request_t) (conf : auth_token_loc_conf_t)
    (token : ngx_str_t) (h : ngx_table_elt_t) (hw : headers_well_formed r conf)
    (hf : first_match conf r.headers_in.headers.toList h) :
    search_headers r conf token
      = .ok ({ rc := NGX_OK, token := { len := h.value.len, data := h.value.data } }, r) := by
  obtain ⟨hl, hn, hk⟩ := hw
  obtain ⟨pre, post, hsplit, hpre, hh⟩ := hf
  have hpre' : ∀ x ∈ pre, key_matches conf x = .ok false := by
    intro x hx
    have hx' : x ∈ r.headers_in.headers.toList := by
      rw [hsplit]; exact List.mem_append_left _ hx
    rcases key_matches_defined conf x hn (hk x hx') with hm | hm
    · exact absurd ((key_matches_true_iff conf x).mp hm) (hpre x hx)
    · exact hm
  rw [search_headers_flat r conf token hl, hsplit,
    search_part_first conf _ pre post h hpre' (key_matches_true conf h hh)]

theorem search_headers_of_no_match (r : ngx_http_request_t) (conf : auth_token_loc_conf_t)
    (token : ngx_str_t) (hw : headers_well_formed r conf)
    (hnone : ∀ x ∈ r.headers_in.headers.toList, ¬ compares_equal conf x) :
    search_headers r conf token = .ok ({ rc := NGX_DECLINED, token := token }, r) := by
  obtain ⟨hl, hn, hk⟩ := hw
  have hnone' : ∀ x ∈ r.headers_in.headers.toList, key_matches conf x = .ok false := by
    intro x hx
    rcases key_matches_defined conf x hn (hk x hx) with hm | hm
    · exact absurd ((key_matches_true_iff conf x).mp hm) (hnone x hx)
    · exact hm
  rw [search_headers_flat r conf token hl, search_part_none conf _ _ hnone']

theorem header_lookup_of_search (r : ngx_http_request_t) (conf : auth_token_loc_conf_t)
    (token : ngx_str_t) (s : search_result)
    (hs : search_headers r conf token = .ok (s, r))
    (hrc : s.rc = NGX_OK ∨ s.rc = NGX_DECLINED) :
    header_lookup r conf token = .ok (s, r) := by
  simp only [header_lookup, hs]
  rcases hrc with h | h
  · have : s.rc ≠ NGX_DECLINED := by rw [h]; decide
    rw [if_neg this]
    cases s; simp_all
  · rw [if_pos h]
    cases s; simp_all

theorem search_result_request (r r1 : ngx_http_request_t) (conf : auth_token_loc_conf_t)
    (token : ngx_str_t) (s : search_result)
    (hs : search_headers r conf token = .ok (s, r1)) : r1 = r := by
  unfold search_headers at hs
  split at hs
  · exact absurd hs (by simp)
  · simp at hs; exact hs.2.symm

theorem header_lookup_request (r r1 : ngx_http_request_t) (conf : auth_token_loc_conf_t)
    (token : ngx_str_t) (s : search_result)
    (hs : header_lookup r conf token = .ok (s, r1)) : r1 = r := by
  unfold header_lookup at hs
  cases hsh : search_headers r conf token with
  | error f => rw [hsh] at hs; simp at hs
  | ok p =>
    obtain ⟨s0, r0⟩ := p
    have := search_result_request r r0 conf token s0 hsh
    rw [hsh] at hs
    simp only at hs
    split at hs <;> simp at hs <;> rw [← hs.2, this]

theorem cookie_lookup_request (env : Collaborators) (r r1 : ngx_http_request_t)
    (conf : auth_token_loc_conf_t) (token : ngx_str_t) (s : search_result)
    (hs : cookie_lookup env r conf token = .ok (s, r1)) : r1 = r := by
  unfold cookie_lookup at hs
  simp only at hs
  split at hs <;> simp at hs <;> exact hs.2.symm

theorem locate_request (env : Collaborators) (r r1 : ngx_http_request_t) (s : search_result)
    (hs : locate env r = .ok (s, r1)) : r1 = r := by
  unfold locate at hs
  split at hs
  · exact header_lookup_request r r1 _ _ s hs
  · exact cookie_lookup_request env r r1 _ _ s hs

theorem locate_of_token_located (env : Collaborators) (r : ngx_http_request_t)
    (t : ngx_str_t) (ht : token_located env r t) :
    locate env r = .ok ({ rc := NGX_OK, token := t }, r) := by
  rcases ht with ⟨hname, hw, h, hf, rfl⟩ | ⟨hname, i, hi, hp⟩
  · unfold locate
    rw [if_pos hname]
    exact header_lookup_of_search r _ _ _
      (search_headers_of_first_match r r.loc_conf unset h hw hf) (Or.inl rfl)
  · unfold locate cookie_lookup
    have hn : ¬ r.loc_conf.header_name.len ≠ 0 := by simp [hname]
    rw [if_neg hn, hp]
    simp only [if_neg hi]

theorem locate_of_no_token (env : Collaborators) (r : ngx_http_request_t)
    (hno : no_token_located env r) :
    ∃ tok, locate env r = .ok ({ rc := NGX_DECLINED, token := tok }, r) := by
  rcases hno with ⟨hname, hw, hnone⟩ | ⟨hname, hp⟩
  · refine ⟨unset, ?_⟩
    unfold locate
    rw [if_pos hname]
    exact header_lookup_of_search r _ _ _
      (search_headers_of_no_match r r.loc_conf unset hw hnone) (Or.inr rfl)
  · refine ⟨(env.ngx_http_parse_multi_header_lines r.headers_in.cookies
      r.loc_conf.cookie_name unset).2, ?_⟩
    unfold locate cookie_lookup
    have hn : ¬ r.loc_conf.header_name.len ≠ 0 := by simp [hname]
    rw [if_neg hn]
    simp only [if_pos hp]

theorem locate_defined (env : Collaborators) (r : ngx_http_request_t)
    (hr : tokens_readable env r) :
    ∃ found, locate env r = .ok (found, r) ∧
      (found.rc ≠ NGX_DECLINED → 0 ∈ found.token.data) := by
  by_cases hname : r.loc_conf.header_name.len ≠ 0
  · obtain ⟨hw, hv⟩ := hr.1 hname
    rcases first_or_none (compares_equal r.loc_conf) r.headers_in.headers.toList with
      ⟨pre, h, post, hsplit, hpre, hh⟩ | hnone
    · refine ⟨{ rc := NGX_OK, token := h.value }, ?_, ?_⟩
      · exact locate_of_token_located env r h.value
          (Or.inl ⟨hname, hw, h, ⟨pre, post, hsplit, hpre, hh⟩, rfl⟩)
      · intro _
        exact hv h (by rw [hsplit]; simp)
    · obtain ⟨tok, htok⟩ := locate_of_no_token env r (Or.inl ⟨hname, hw, hnone⟩)
      exact ⟨_, htok, fun hne => absurd rfl hne⟩
  · have hlen : r.loc_conf.header_name.len = 0 := by
      by_contra hne; exact hname hne
    by_cases hp : (env.ngx_http_parse_multi_header_lines r.headers_in.cookies
        r.loc_conf.cookie_name unset).1 = NGX_DECLINED
    · obtain ⟨tok, htok⟩ := locate_of_no_token env r (Or.inr ⟨hlen, hp⟩)
      exact ⟨_, htok, fun hne => absurd rfl hne⟩
    · refine ⟨{ rc := NGX_OK, token := (env.ngx_http_parse_multi_header_lines
          r.headers_in.cookies r.loc_conf.cookie_name unset).2 }, ?_, ?_⟩
      · exact locate_of_token_located env r _ (Or.inr ⟨hlen, _, hp, rfl⟩)
      · intro _
        exact hr.2 hlen hp

/-! ## The store lookup -/

theorem lookup_user_string (env : Collaborators) (conf : auth_token_main_conf_t)
    (auth_token user_id : ngx_str_t) (c : redisContext) (key v : List Nat)
    (hc : env.redisConnect conf.redis_host.data conf.redis_port = some c)
    (hkey : c_str auth_token.data = .ok key)
    (hget : env.redisCommand c key = some (string_reply v)) :
    lookup_user env conf auth_token user_id
      = .ok { rc := NGX_OK,
              user_id := { len := (v.takeWhile (fun b => b ≠ 0)).length, data := v ++ [0] },
              gets := [key] } := by
  have hty : (string_reply v).type ≠ REDIS_REPLY_NIL := by
    simp [string_reply, REDIS_REPLY_STRING, REDIS_REPLY_NIL]
  simp only [lookup_user, hc, hkey, hget, if_neg hty]
  simp [string_reply, strlen_zero_ended]

theorem lookup_user_nil (env : Collaborators) (conf : auth_token_main_conf_t)
    (auth_token user_id : ngx_str_t) (c : redisContext) (key : List Nat) (reply : redisReply)
    (hc : env.redisConnect conf.redis_host.data conf.redis_port = some c)
    (hkey : c_str auth_token.data = .ok key)
    (hget : env.redisCommand c key = some reply)
    (hnil : reply.type = REDIS_REPLY_NIL) :
    lookup_user env conf auth_token user_id
      = .ok { rc := NGX_DECLINED, user_id := user_id, gets := [key] } := by
  simp only [lookup_user, hc, hkey, hget, if_pos hnil]

theorem lookup_user_defined (env : Collaborators) (conf : auth_token_main_conf_t)
    (auth_token user_id : ngx_str_t) (hs : store_answers env conf)
    (h0 : 0 ∈ auth_token.data) :
    ∃ looked, lookup_user env conf auth_token user_id = .ok looked := by
  obtain ⟨c, hc, hall⟩ := hs
  obtain ⟨key, hkey⟩ := c_str_defined auth_token.data h0
  obtain ⟨reply, hget, hr⟩ := hall key
  by_cases hty : reply.type = REDIS_REPLY_NIL
  · exact ⟨_, lookup_user_nil env conf auth_token user_id c key reply hc hkey hget hty⟩
  · rcases hr with hnil | ⟨str, hstr, hz⟩
    · exact absurd hnil hty
    · obtain ⟨n, hn⟩ := strlen_defined str hz
      exact ⟨{ rc := NGX_OK, user_id := { len := n, data := str }, gets := [key] }, by
        simp only [lookup_user, hc, hkey, hget, if_neg hty, hstr, hn]⟩

theorem redis_with_answers (kv : List (List Nat × List Nat)) (conf : auth_token_main_conf_t) :
    store_answers (redis_with kv) conf := by
  refine ⟨{ err := 0 }, rfl, fun key => ?_⟩
  cases h : kv.lookup key with
  | none => exact ⟨nil_reply, by simp [redis_with, h], Or.inl rfl⟩
  | some v =>
    exact ⟨string_reply v, by simp [redis_with, h],
      Or.inr ⟨v ++ [0], rfl, by simp⟩⟩

/-! ## The handler -/

theorem handler_after_guards (env : Collaborators) (r : ngx_http_request_t)
    (hi : r.main_internal = false) (hon : r.loc_conf.on) :
    ngx_http_auth_token_handler env r
      = match locate env r with
        | .error f => .error f
        | .ok (found, r1) =>
          if found.rc = NGX_DECLINED then
            .ok { rc := NGX_HTTP_MOVED_TEMPORARILY,
                  r := (redirect r1 r.loc_conf.redirect_location).2, gets := [] }
          else
            match lookup_user env r.main_conf found.token unset with
            | .error f => .error f
            | .ok looked =>
              if looked.rc = NGX_DECLINED then
                .ok { rc := NGX_HTTP_MOVED_TEMPORARILY,
                      r := (redirect r1 r.loc_conf.redirect_location).2, gets := looked.gets }
              else
                .ok { rc := NGX_DECLINED, r := append_user_id r1 looked.user_id,
                      gets := looked.gets } := by
  have hoff : ¬ (r.loc_conf.enabled = 0 ∨ r.loc_conf.enabled = NGX_CONF_UNSET) := by
    intro h
    rcases h with h | h
    · exact hon.1 h
    · exact hon.2 h
  unfold ngx_http_auth_token_handler locate
  simp only [hi, if_neg hoff, redirect]
  rfl

theorem handler_allow_of_located (env : Collaborators) (r : ngx_http_request_t)
    (t : ngx_str_t) (c : redisContext) (key v : List Nat)
    (hi : r.main_internal = false) (hon : r.loc_conf.on)
    (hloc : token_located env r t)
    (hkey : c_str t.data = .ok key)
    (hc : env.redisConnect r.main_conf.redis_host.data r.main_conf.redis_port = some c)
    (hget : env.redisCommand c key = some (string_reply v)) :
    ngx_http_auth_token_handler env r
      = .ok { rc := NGX_DECLINED, r := append_user_id r (resolved_identity v),
              gets := [key] } := by
  rw [handler_after_guards env r hi hon, locate_of_token_located env r t hloc]
  have hne : ¬ (NGX_OK = NGX_DECLINED) := by decide
  simp only [if_neg hne]
  rw [lookup_user_string env r.main_conf t unset c key v hc hkey hget]
  simp only [if_neg hne]
  rfl

theorem handler_deny_of_no_token (env : Collaborators) (r : ngx_http_request_t)
    (hi : r.main_internal = false) (hon : r.loc_conf.on)
    (hno : no_token_located env r) :
    ngx_http_auth_token_handler env r
      = .ok { rc := NGX_HTTP_MOVED_TEMPORARILY,
              r := (redirect r r.loc_conf.redirect_location).2, gets := [] } := by
  obtain ⟨tok, htok⟩ := locate_of_no_token env r hno
  rw [handler_after_guards env r hi hon, htok]
  simp

theorem handler_deny_of_no_key (env : Collaborators) (r : ngx_http_request_t)
    (t : ngx_str_t)
    (hi : r.main_internal = false) (hon : r.loc_conf.on)
    (hloc : token_located env r t)
    (hnil : store_has_no_key env r.main_conf t) :
    ∃ key, c_str t.data = .ok key ∧ ngx_http_auth_token_handler env r
      = .ok { rc := NGX_HTTP_MOVED_TEMPORARILY,
              r := (redirect r r.loc_conf.redirect_location).2, gets := [key] } := by
  obtain ⟨c, key, reply, hc, hkey, hget, hty⟩ := hnil
  refine ⟨key, hkey, ?_⟩
  rw [handler_after_guards env r hi hon, locate_of_token_located env r t hloc]
  have hne : ¬ (NGX_OK = NGX_DECLINED) := by decide
  simp only [if_neg hne]
  rw [lookup_user_nil env r.main_conf t unset c key reply hc hkey hget hty]
  simp

/-- The three ways a run of the handler behind its two guards can end. -/
theorem handler_classified (env : Collaborators) (r : ngx_http_request_t)
    (hi : r.main_internal = false) (hon : r.loc_conf.on) :
    (∃ f, ngx_http_auth_token_handler env r = .error f) ∨
    (∃ found looked, locate env r = .ok (found, r) ∧ found.rc ≠ NGX_DECLINED ∧
      lookup_user env r.main_conf found.token unset = .ok looked ∧
      looked.rc ≠ NGX_DECLINED ∧
      ngx_http_auth_token_handler env r
        = .ok { rc := NGX_DECLINED, r := append_user_id r looked.user_id,
                gets := looked.gets }) ∨
    (∃ gets, ngx_http_auth_token_handler env r
        = .ok { rc := NGX_HTTP_MOVED_TEMPORARILY,
                r := (redirect r r.loc_conf.redirect_location).2, gets := gets }) := by
  rw [handler_after_guards env r hi hon]
  cases hloc : locate env r with
  | error f => exact Or.inl ⟨f, rfl⟩
  | ok p =>
    obtain ⟨found, r1⟩ := p
    have hr1 : r1 = r := locate_request env r r1 found hloc
    subst hr1
    simp only
    by_cases hrc : found.rc = NGX_DECLINED
    · exact Or.inr (Or.inr ⟨[], by simp [hrc]⟩)
    · simp only [if_neg hrc]
      cases hlk : lookup_user env r1.main_conf found.token unset with
      | error f => exact Or.inl ⟨f, rfl⟩
      | ok looked =>
        simp only
        by_cases hl : looked.rc = NGX_DECLINED
        · exact Or.inr (Or.inr ⟨looked.gets, by simp [hl]⟩)
        · exact Or.inr (Or.inl ⟨found, looked, rfl, hrc, hlk, hl, by simp [hl]⟩)

/-! ## The claims -/

/-- C1 (amended).  For every request whose main request is not internal, in a
scope where the module is enabled and the header name is non-empty: if the header
search locates a token (the value of the first header entry `h` that compares equal
to the configured name, held as a C string like every nginx header value) and the
store answers the `GET` for it with a stored value `v`, then the handler returns
`NGX_DECLINED`, the inbound header list becomes the old list followed by one
`X-User-Id` entry carrying the identity `lookup_user` resolved from `v`, the response
headers stay as they were (no `Location`), and exactly one `GET`, for the token, is
issued.  The same holds with any `cookies` put in place of the request's cookies:
the cookie path is never consulted. -/
theorem handler_header_token_allow (env : Collaborators) (r : ngx_http_request_t)
    (h : ngx_table_elt_t) (c : redisContext) (v : List Nat)
    (cookies : List ngx_table_elt_t)
    (hi : r.main_internal = false)
    (hon : r.loc_conf.on)
    (hname : r.loc_conf.header_name.len ≠ 0)
    (hw : headers_well_formed r r.loc_conf)
    (hf : first_match r.loc_conf r.headers_in.headers.toList h)
    (ht : h.value.terminated)
    (hc : env.redisConnect r.main_conf.redis_host.data r.main_conf.redis_port = some c)
    (hget : env.redisCommand c h.value.val = some (string_reply v)) :
    ngx_http_auth_token_handler env
        { r with headers_in := { r.headers_in with cookies := cookies } }
      = .ok { rc := NGX_DECLINED,
              r := append_user_id
                { r with headers_in := { r.headers_in with cookies := cookies } }
                (resolved_identity v),
              gets := [h.value.val] } ∧
    (append_user_id { r with headers_in := { r.headers_in with cookies := cookies } }
        (resolved_identity v)).headers_in.headers.toList
      = r.headers_in.headers.toList
        ++ [{ hash := 1, key := ngx_string "X-User-Id", value := resolved_identity v }] ∧
    (append_user_id { r with headers_in := { r.headers_in with cookies := cookies } }
        (resolved_identity v)).headers_out = r.headers_out ∧
    (resolved_identity v).val = v.takeWhile (fun b => b ≠ 0) := by
  refine ⟨?_, ?_, rfl, resolved_identity_val v⟩
  · exact handler_allow_of_located env
      { r with headers_in := { r.headers_in with cookies := cookies } }
      h.value c h.value.val v hi hon (Or.inl ⟨hname, hw, h, hf, rfl⟩)
      (c_str_of_terminated h.value ht) hc hget
  · exact append_user_id_toList _ _

/-- Scenario A of the specification, with a cookie added: header
`X-Auth-Token: abc123`, store `abc123 -> user-42`; the request continues with
`X-User-Id: user-42`. -/
theorem handler_header_token_allow_witness :
    ngx_http_auth_token_handler (redis_with [(bytes "abc123", bytes "user-42")])
        { scenario_a with headers_in :=
            { scenario_a.headers_in with cookies := [header_line "Cookie" "session=xyz"] } }
      = .ok { rc := NGX_DECLINED,
              r := append_user_id
                { scenario_a with headers_in :=
                    { scenario_a.headers_in with
                        cookies := [header_line "Cookie" "session=xyz"] } }
                (resolved_identity (bytes "user-42")),
              gets := [(header_line "X-Auth-Token" "abc123").value.val] } ∧
    (append_user_id
        { scenario_a with headers_in :=
            { scenario_a.headers_in with cookies := [header_line "Cookie" "session=xyz"] } }
        (resolved_identity (bytes "user-42"))).headers_in.headers.toList
      = scenario_a.headers_in.headers.toList
        ++ [{ hash := 1, key := ngx_string "X-User-Id",
              value := resolved_identity (bytes "user-42") }] ∧
    (append_user_id
        { scenario_a with headers_in :=
            { scenario_a.headers_in with cookies := [header_line "Cookie" "session=xyz"] } }
        (resolved_identity (bytes "user-42"))).headers_out = scenario_a.headers_out ∧
    (resolved_identity (bytes "user-42")).val
      = (bytes "user-42").takeWhile (fun b => b ≠ 0) :=
  handler_header_token_allow (redis_with [(bytes "abc123", bytes "user-42")]) scenario_a
    (header_line "X-Auth-Token" "abc123") { err := 0 } (bytes "user-42")
    [header_line "Cookie" "session=xyz"]
    (by decide) (by decide) (by decide) (by decide)
    ⟨[header_line "Host" "example.org"], [], by decide, by decide, by decide⟩
    (by decide) (by decide) (by decide)

/-- C1 fails as stated: the request of scenario A with `r->main->internal` set is in
an enabled scope with a non-empty header name, its header search finds `abc123`, and
the store holds `user-42` for it; yet the handler returns through its first guard,
with no `X-User-Id` entry added and no `GET` issued. -/
theorem handler_internal_request_not_allowed :
    ({ scenario_a with main_internal := true } : ngx_http_request_t).loc_conf.on ∧
    ({ scenario_a with main_internal := true } : ngx_http_request_t).loc_conf.header_name.len
      ≠ 0 ∧
    search_headers { scenario_a with main_internal := true } header_conf unset
      = .ok ({ rc := NGX_OK, token := ngx_string "abc123" },
          { scenario_a with main_internal := true }) ∧
    (redis_with [(bytes "abc123", bytes "user-42")]).redisCommand { err := 0 }
        (ngx_string "abc123").val = some (string_reply (bytes "user-42")) ∧
    ngx_http_auth_token_handler (redis_with [(bytes "abc123", bytes "user-42")])
        { scenario_a with main_internal := true }
      = .ok { rc := NGX_DECLINED, r := { scenario_a with main_internal := true },
              gets := [] } ∧
    (({ scenario_a with main_internal := true } :
        ngx_http_request_t).headers_in.headers.toList.countP (named "X-User-Id")) = 0 := by
  decide

/-- C2 (amended).  For every request in an enabled scope whose main request is not
internal, every denial yields the same redirect and never an error: if no token is
located (a header name is configured and no header entry compares equal, whatever the
cookies; or no header name is configured and the cookie parser reports
`NGX_DECLINED`), or if a token is located and the store answers the `GET` issued for
it with a nil reply, then the handler returns `NGX_HTTP_MOVED_TEMPORARILY`, the
response header list becomes the old list followed by one `Location` entry whose
value is the scope's `redirect_location`, and the inbound headers stay as they were
(no `X-User-Id`). -/
theorem handler_denial_redirects (env : Collaborators) (r : ngx_http_request_t)
    (hi : r.main_internal = false)
    (hon : r.loc_conf.on)
    (hdeny : no_token_located env r ∨
      ∃ t, token_located env r t ∧ store_has_no_key env r.main_conf t) :
    ∃ gets, ngx_http_auth_token_handler env r
        = .ok { rc := NGX_HTTP_MOVED_TEMPORARILY,
                r := (redirect r r.loc_conf.redirect_location).2, gets := gets } ∧
      (redirect r r.loc_conf.redirect_location).2.headers_out.headers.toList
        = r.headers_out.headers.toList
          ++ [{ hash := 1, key := ngx_string "Location",
                value := r.loc_conf.redirect_location }] ∧
      (redirect r r.loc_conf.redirect_location).2.headers_in = r.headers_in := by
  rcases hdeny with hno | ⟨t, hloc, hnil⟩
  · exact ⟨[], handler_deny_of_no_token env r hi hon hno, redirect_toList _ _, rfl⟩
  · obtain ⟨key, _, hk⟩ := handler_deny_of_no_key env r t hi hon hloc hnil
    exact ⟨[key], hk, redirect_toList _ _, rfl⟩

/-- Scenario B of the specification (no `X-Auth-Token` header) and scenario A
against an empty store both end in the redirect to `/login`. -/
theorem handler_denial_redirects_witness :
    (∃ gets, ngx_http_auth_token_handler (redis_with []) scenario_b
        = .ok { rc := NGX_HTTP_MOVED_TEMPORARILY,
                r := (redirect scenario_b scenario_b.loc_conf.redirect_location).2,
                gets := gets } ∧
      (redirect scenario_b scenario_b.loc_conf.redirect_location).2.headers_out.headers.toList
        = scenario_b.headers_out.headers.toList
          ++ [{ hash := 1, key := ngx_string "Location",
                value := scenario_b.loc_conf.redirect_location }] ∧
      (redirect scenario_b scenario_b.loc_conf.redirect_location).2.headers_in
        = scenario_b.headers_in) ∧
    (∃ gets, ngx_http_auth_token_handler (redis_with []) scenario_a
        = .ok { rc := NGX_HTTP_MOVED_TEMPORARILY,
                r := (redirect scenario_a scenario_a.loc_conf.redirect_location).2,
                gets := gets } ∧
      (redirect scenario_a scenario_a.loc_conf.redirect_location).2.headers_out.headers.toList
        = scenario_a.headers_out.headers.toList
          ++ [{ hash := 1, key := ngx_string "Location",
                value := scenario_a.loc_conf.redirect_location }] ∧
      (redirect scenario_a scenario_a.loc_conf.redirect_location).2.headers_in
        = scenario_a.headers_in) :=
  ⟨handler_denial_redirects (redis_with []) scenario_b (by decide) (by decide)
      (Or.inl (Or.inl ⟨by decide, by decide, by decide⟩)),
   handler_denial_redirects (redis_with []) scenario_a (by decide) (by decide)
      (Or.inr ⟨ngx_string "abc123",
        Or.inl ⟨by decide, by decide, header_line "X-Auth-Token" "abc123",
          ⟨[header_line "Host" "example.org"], [], by decide, by decide, by decide⟩, by decide⟩,
        ⟨{ err := 0 }, bytes "abc123", nil_reply, by decide, by decide, by decide, by decide⟩⟩)⟩

/-- C2 fails as stated: the request of scenario B with `r->main->internal` set is
in an enabled scope and carries no token, yet the handler returns `NGX_DECLINED`, not
`NGX_HTTP_MOVED_TEMPORARILY`, and the response has no `Location` entry. -/
theorem handler_internal_request_not_redirected :
    ({ scenario_b with main_internal := true } : ngx_http_request_t).loc_conf.on ∧
    no_token_located (redis_with []) { scenario_b with main_internal := true } ∧
    ngx_http_auth_token_handler (redis_with []) { scenario_b with main_internal := true }
      = .ok { rc := NGX_DECLINED, r := { scenario_b with main_internal := true }, gets := [] } ∧
    NGX_DECLINED ≠ NGX_HTTP_MOVED_TEMPORARILY ∧
    ({ scenario_b with main_internal := true } : ngx_http_request_t).headers_out.headers.toList
      = [] :=
  ⟨by decide, Or.inl ⟨by decide, by decide, by decide⟩, by decide, by decide, by decide⟩

/-- C3, evaluated on scenario A with a failing store.  When the connection is
refused (`redisCommand` returns `NULL`) `lookup_user` faults on `reply->type` and so
does the handler; when `redisConnect` returns `NULL` the handler faults as well; when
the server answers with an error line, `lookup_user` returns `NGX_OK` with the error
text as identity and the handler lets the request continue with that text in
`X-User-Id`.  In none of the three cases does the handler return the redirect. -/
theorem handler_store_failure :
    lookup_user redis_refusing redis_conf (ngx_string "abc123") unset
      = .error .null_deref ∧
    ngx_http_auth_token_handler redis_refusing scenario_a = .error .null_deref ∧
    ngx_http_auth_token_handler redis_absent scenario_a = .error .null_deref ∧
    lookup_user (redis_erring "LOADING Redis is loading the dataset in memory") redis_conf
        (ngx_string "abc123") unset
      = .ok { rc := NGX_OK,
              user_id := ngx_string "LOADING Redis is loading the dataset in memory",
              gets := [bytes "abc123"] } ∧
    ngx_http_auth_token_handler (redis_erring "LOADING Redis is loading the dataset in memory")
        scenario_a
      = .ok { rc := NGX_DECLINED,
              r := append_user_id scenario_a
                (ngx_string "LOADING Redis is loading the dataset in memory"),
              gets := [bytes "abc123"] } := by
  decide

/-- C4.  For every request whose scope has the module disabled (`enabled` is `0` or
`NGX_CONF_UNSET`), whatever headers and cookies it carries and whatever the
collaborators (store and cookie parser) would answer, the handler returns
`NGX_DECLINED`, leaves the request, inbound and response headers included, exactly as
it was, and hands no `GET` to the Redis client. -/
theorem handler_disabled_pass_through (env : Collaborators) (r : ngx_http_request_t)
    (hd : r.loc_conf.enabled = 0 ∨ r.loc_conf.enabled = NGX_CONF_UNSET) :
    ngx_http_auth_token_handler env r = .ok { rc := NGX_DECLINED, r := r, gets := [] } := by
  unfold ngx_http_auth_token_handler
  cases r.main_internal <;> simp [hd]

/-- A request with a valid token in a scope where the module is switched off passes
through untouched. -/
theorem handler_disabled_pass_through_witness :
    ngx_http_auth_token_handler (redis_with [(bytes "abc123", bytes "user-42")])
        { two_part_request with loc_conf := { header_conf with enabled := 0 } }
      = .ok { rc := NGX_DECLINED,
              r := { two_part_request with loc_conf := { header_conf with enabled := 0 } },
              gets := [] } :=
  handler_disabled_pass_through _ _ (by decide)

/-- C5 (amended).  For every request in an enabled scope whose main request is not
internal, a run of the handler either faults or ends in one of exactly two outcomes:
Allow (`NGX_DECLINED` with an `X-User-Id` entry appended) or Deny
(`NGX_HTTP_MOVED_TEMPORARILY` with a `Location` entry appended); and it does not
fault when what it reads of the request is readable and the store answers with a nil
reply or a zero ended string.  A run that returns lets the request continue without
injecting an identity (`NGX_DECLINED`, inbound headers unchanged) exactly when the
module is disabled for the scope or the main request is internal. -/
theorem handler_outcomes (env : Collaborators) (r : ngx_http_request_t) :
    (r.main_internal = false → r.loc_conf.on →
      ((∃ f, ngx_http_auth_token_handler env r = .error f) ∨
       (∃ user_id gets, ngx_http_auth_token_handler env r
          = .ok { rc := NGX_DECLINED, r := append_user_id r user_id, gets := gets }) ∨
       (∃ gets, ngx_http_auth_token_handler env r
          = .ok { rc := NGX_HTTP_MOVED_TEMPORARILY,
                  r := (redirect r r.loc_conf.redirect_location).2, gets := gets })) ∧
      (tokens_readable env r → store_answers env r.main_conf →
        ∃ res, ngx_http_auth_token_handler env r = .ok res)) ∧
    (∀ res, ngx_http_auth_token_handler env r = .ok res →
      ((res.rc = NGX_DECLINED ∧ res.r.headers_in = r.headers_in) ↔
        (¬ r.loc_conf.on ∨ r.main_internal = true))) := by
  constructor
  · intro hi hon
    constructor
    · rcases handler_classified env r hi hon with hf | ⟨_, looked, _, _, _, _, h⟩ | hd
      · exact Or.inl hf
      · exact Or.inr (Or.inl ⟨looked.user_id, looked.gets, h⟩)
      · exact Or.inr (Or.inr hd)
    · intro hr hs
      obtain ⟨found, hloc, hz⟩ := locate_defined env r hr
      rw [handler_after_guards env r hi hon, hloc]
      simp only
      by_cases hrc : found.rc = NGX_DECLINED
      · exact ⟨_, by rw [if_pos hrc]⟩
      · obtain ⟨looked, hlk⟩ := lookup_user_defined env r.main_conf found.token unset hs (hz hrc)
        rw [if_neg hrc, hlk]
        simp only
        by_cases hl : looked.rc = NGX_DECLINED
        · exact ⟨_, by rw [if_pos hl]⟩
        · exact ⟨_, by rw [if_neg hl]⟩
  · intro res hres
    constructor
    · rintro ⟨hrc, hin⟩
      by_contra hcon
      have hon : r.loc_conf.on := by
        by_contra h; exact hcon (Or.inl h)
      have hi : r.main_internal = false := by
        cases hb : r.main_internal with
        | false => rfl
        | true => exact absurd (Or.inr hb) hcon
      rcases handler_classified env r hi hon with ⟨f, hf⟩ | ⟨_, looked, _, _, _, _, h⟩ | ⟨g, hd⟩
      · rw [hf] at hres; exact absurd hres (by simp)
      · rw [h] at hres
        have hres' := Except.ok.inj hres
        rw [← hres'] at hin
        have h1 := congrArg (fun x => x.headers) hin
        exact ngx_list_push_ne _ _ h1
      · rw [hd] at hres
        have hres' := Except.ok.inj hres
        rw [← hres'] at hrc
        have hne : NGX_HTTP_MOVED_TEMPORARILY ≠ NGX_DECLINED := by decide
        exact absurd hrc hne
    · intro hoff
      have hpass : ngx_http_auth_token_handler env r
          = .ok { rc := NGX_DECLINED, r := r, gets := [] } := by
        unfold ngx_http_auth_token_handler
        rcases hoff with hoff | hint
        · have hd : r.loc_conf.enabled = 0 ∨ r.loc_conf.enabled = NGX_CONF_UNSET := by
            unfold auth_token_loc_conf_t.on at hoff
            by_contra hcon
            exact hoff ⟨fun h => hcon (Or.inl h), fun h => hcon (Or.inr h)⟩
          cases r.main_internal <;> simp [hd]
        · simp [hint]
      rw [hpass] at hres
      have hres' := Except.ok.inj hres
      rw [← hres']
      exact ⟨rfl, rfl⟩

/-- Scenario A is an enabled, not internal request with readable strings and an
answering store. -/
theorem handler_outcomes_witness :
    ((∃ f, ngx_http_auth_token_handler (redis_with [(bytes "abc123", bytes "user-42")])
          scenario_a = .error f) ∨
     (∃ user_id gets,
        ngx_http_auth_token_handler (redis_with [(bytes "abc123", bytes "user-42")]) scenario_a
          = .ok { rc := NGX_DECLINED, r := append_user_id scenario_a user_id, gets := gets }) ∨
     (∃ gets,
        ngx_http_auth_token_handler (redis_with [(bytes "abc123", bytes "user-42")]) scenario_a
          = .ok { rc := NGX_HTTP_MOVED_TEMPORARILY,
                  r := (redirect scenario_a scenario_a.loc_conf.redirect_location).2,
                  gets := gets })) ∧
    (∃ res,
      ngx_http_auth_token_handler (redis_with [(bytes "abc123", bytes "user-42")]) scenario_a
        = .ok res) ∧
    (∀ res,
      ngx_http_auth_token_handler (redis_with [(bytes "abc123", bytes "user-42")]) scenario_a
        = .ok res →
      ((res.rc = NGX_DECLINED ∧ res.r.headers_in = scenario_a.headers_in) ↔
        (¬ scenario_a.loc_conf.on ∨ scenario_a.main_internal = true))) :=
  ⟨((handler_outcomes (redis_with [(bytes "abc123", bytes "user-42")]) scenario_a).1
      (by decide) (by decide)).1,
   ((handler_outcomes (redis_with [(bytes "abc123", bytes "user-42")]) scenario_a).1
      (by decide) (by decide)).2
      ⟨fun _ => ⟨by decide, by decide⟩, fun h => absurd h (by decide)⟩
      (redis_with_answers _ _),
   (handler_outcomes (redis_with [(bytes "abc123", bytes "user-42")]) scenario_a).2⟩

/-- C5 fails as stated: the request of scenario C with `r->main->internal` set is
in an enabled scope, and the handler lets it continue unchanged, neither allowing
with an identity nor redirecting. -/
theorem handler_internal_request_passes_through :
    ({ scenario_c with main_internal := true } : ngx_http_request_t).loc_conf.on ∧
    ngx_http_auth_token_handler
        (redis_with_cookie [(bytes "xyz", bytes "user-42")] (ngx_str_at cookie_line 8 3))
        { scenario_c with main_internal := true }
      = .ok { rc := NGX_DECLINED, r := { scenario_c with main_internal := true },
              gets := [] } := by
  decide

/-- C6 (amended).  Identity injection appends.  For every run of the handler behind
its guards that ends in Allow (it returns `NGX_DECLINED`), the inbound header list
afterwards is the list as it arrived followed by one entry named `X-User-Id` whose
value is the identity `lookup_user` resolved for the located token; every entry that
arrived is unchanged and stays in front of it, so the number of `X-User-Id` entries
grows by one; cookies and response headers are unchanged. -/
theorem handler_allow_appends (env : Collaborators) (r : ngx_http_request_t)
    (res : handler_result)
    (hi : r.main_internal = false)
    (hon : r.loc_conf.on)
    (hres : ngx_http_auth_token_handler env r = .ok res)
    (hallow : res.rc = NGX_DECLINED) :
    ∃ found looked, locate env r = .ok (found, r) ∧
      lookup_user env r.main_conf found.token unset = .ok looked ∧
      res.r = append_user_id r looked.user_id ∧
      res.r.headers_in.headers.toList
        = r.headers_in.headers.toList
          ++ [{ hash := 1, key := ngx_string "X-User-Id", value := looked.user_id }] ∧
      res.r.headers_in.headers.toList.countP (named "X-User-Id")
        = r.headers_in.headers.toList.countP (named "X-User-Id") + 1 ∧
      res.r.headers_in.cookies = r.headers_in.cookies ∧
      res.r.headers_out = r.headers_out := by
  rcases handler_classified env r hi hon with ⟨f, hf⟩ | ⟨found, looked, hloc, _, hlk, _, h⟩ |
    ⟨g, hd⟩
  · rw [hf] at hres; exact absurd hres (by simp)
  · rw [h] at hres
    have hres' := Except.ok.inj hres
    refine ⟨found, looked, hloc, hlk, ?_, ?_, ?_, ?_, ?_⟩
    · rw [← hres']
    · rw [← hres']; exact append_user_id_toList _ _
    · rw [← hres']
      simp only [append_user_id_toList, List.countP_append]
      rfl
    · rw [← hres']; rfl
    · rw [← hres']; rfl
  · rw [hd] at hres
    have hres' := Except.ok.inj hres
    rw [← hres'] at hallow
    have hne : NGX_HTTP_MOVED_TEMPORARILY ≠ NGX_DECLINED := by decide
    exact absurd hallow hne

/-- Scenario A ends in Allow with `X-User-Id: user-42` appended. -/
theorem handler_allow_appends_witness :
    ∃ found looked,
      locate (redis_with [(bytes "abc123", bytes "user-42")]) scenario_a
        = .ok (found, scenario_a) ∧
      lookup_user (redis_with [(bytes "abc123", bytes "user-42")]) scenario_a.main_conf
        found.token unset = .ok looked ∧
      (append_user_id scenario_a (ngx_string "user-42"))
        = append_user_id scenario_a looked.user_id ∧
      (append_user_id scenario_a (ngx_string "user-42")).headers_in.headers.toList
        = scenario_a.headers_in.headers.toList
          ++ [{ hash := 1, key := ngx_string "X-User-Id", value := looked.user_id }] ∧
      (append_user_id scenario_a (ngx_string "user-42")).headers_in.headers.toList.countP
          (named "X-User-Id")
        = scenario_a.headers_in.headers.toList.countP (named "X-User-Id") + 1 ∧
      (append_user_id scenario_a (ngx_string "user-42")).headers_in.cookies
        = scenario_a.headers_in.cookies ∧
      (append_user_id scenario_a (ngx_string "user-42")).headers_out
        = scenario_a.headers_out :=
  handler_allow_appends (redis_with [(bytes "abc123", bytes "user-42")]) scenario_a
    { rc := NGX_DECLINED, r := append_user_id scenario_a (ngx_string "user-42"),
      gets := [bytes "abc123"] }
    (by decide) (by decide) (by decide) (by decide)

/-- C6 fails as stated: a request arriving with `X-User-Id: admin` and a valid
token ends in Allow with two `X-User-Id` entries, the client's one first. -/
theorem handler_keeps_client_user_id :
    ngx_http_auth_token_handler (redis_with [(bytes "abc123", bytes "user-42")]) forged_request
      = .ok { rc := NGX_DECLINED,
              r := append_user_id forged_request (ngx_string "user-42"),
              gets := [bytes "abc123"] } ∧
    (append_user_id forged_request (ngx_string "user-42")).headers_in.headers.toList
      = [header_line "X-User-Id" "admin", header_line "X-Auth-Token" "abc123",
         header_line "X-User-Id" "user-42"] ∧
    (append_user_id forged_request (ngx_string "user-42")).headers_in.headers.toList.countP
        (named "X-User-Id") = 2 := by
  decide

/-- C7, evaluated on the cookie line `session=xyz; other=1`.  The token located in
it starts at position 8 and has length 3 (the bytes `xyz`), but the key of the `GET`
that `lookup_user` issues is `xyz; other=1`: `%s` reads on to the zero byte that ends
the line.  With `xyz -> user-42` in the store the lookup therefore misses and the
handler redirects. -/
theorem lookup_user_key_runs_past_token :
    (ngx_str_at cookie_line 8 3).val = bytes "xyz" ∧
    lookup_user (redis_with [(bytes "xyz", bytes "user-42")]) redis_conf
        (ngx_str_at cookie_line 8 3) unset
      = .ok { rc := NGX_DECLINED, user_id := unset, gets := [bytes "xyz; other=1"] } ∧
    ngx_http_auth_token_handler
        (redis_with_cookie [(bytes "xyz", bytes "user-42")] (ngx_str_at cookie_line 8 3))
        scenario_c
      = .ok { rc := NGX_HTTP_MOVED_TEMPORARILY,
              r := (redirect scenario_c (ngx_string "/login")).2,
              gets := [bytes "xyz; other=1"] } := by
  decide

/-- C8, evaluated on the stored value `a`, zero byte, `b` (three bytes).
`lookup_user` returns `NGX_OK` with an identity of length 1, the single byte `a`, and
that is the value of the `X-User-Id` entry the handler appends. -/
theorem lookup_user_identity_cut_at_zero_byte :
    lookup_user (redis_with [(bytes "abc123", [97, 0, 98])]) redis_conf
        (ngx_string "abc123") unset
      = .ok { rc := NGX_OK, user_id := { len := 1, data := [97, 0, 98, 0] },
              gets := [bytes "abc123"] } ∧
    ({ len := 1, data := [97, 0, 98, 0] } : ngx_str_t).val = [97] ∧
    ngx_http_auth_token_handler (redis_with [(bytes "abc123", [97, 0, 98])]) scenario_a
      = .ok { rc := NGX_DECLINED,
              r := append_user_id scenario_a { len := 1, data := [97, 0, 98, 0] },
              gets := [bytes "abc123"] } := by
  decide

/-- C9.  `search_headers` is a first-match scan in received order.  For every
request header list in the shape `ngx_list_push` builds (any number of parts), every
configured header name that is a C string, and header keys that lie inside their
buffers, the function returns without a fault and hands the request back unmodified;
it returns `NGX_OK` with the value (pointer and length) of the first entry, in
received order, whose key compares equal to the configured name over the entry's own
key length, and it returns `NGX_DECLINED`, leaving `*token` alone, exactly when no
entry compares equal. -/
theorem search_headers_first_match (r : ngx_http_request_t)
    (location_conf : auth_token_loc_conf_t) (token : ngx_str_t)
    (hl : r.headers_in.headers.linked)
    (hn : 0 ∈ location_conf.header_name.data)
    (hk : ∀ h ∈ r.headers_in.headers.toList, h.key.in_bounds) :
    ∃ res, search_headers r location_conf token = .ok (res, r) ∧
      (res.rc = NGX_DECLINED ↔
        ∀ x ∈ r.headers_in.headers.toList, ¬ compares_equal location_conf x) ∧
      ((∃ pre h post, r.headers_in.headers.toList = pre ++ h :: post ∧
          (∀ x ∈ pre, ¬ compares_equal location_conf x) ∧
          compares_equal location_conf h ∧
          res = { rc := NGX_OK, token := { len := h.value.len, data := h.value.data } }) ∨
       ((∀ x ∈ r.headers_in.headers.toList, ¬ compares_equal location_conf x) ∧
          res = { rc := NGX_DECLINED, token := token })) := by
  rw [search_headers_flat r location_conf token hl]
  have hfalse : ∀ x ∈ r.headers_in.headers.toList, ¬ compares_equal location_conf x →
      key_matches location_conf x = .ok false := by
    intro x hx hm
    rcases key_matches_defined location_conf x hn (hk x hx) with h | h
    · exact absurd ((key_matches_true_iff location_conf x).mp h) hm
    · exact h
  rcases first_or_none (compares_equal location_conf) r.headers_in.headers.toList with
    ⟨pre, h, post, hsplit, hpre, hh⟩ | hnone
  · have hpre' : ∀ x ∈ pre, key_matches location_conf x = .ok false := by
      intro x hx
      exact hfalse x (by rw [hsplit]; exact List.mem_append_left _ hx) (hpre x hx)
    refine ⟨{ rc := NGX_OK, token := { len := h.value.len, data := h.value.data } }, ?_, ?_, ?_⟩
    · rw [hsplit, search_part_first location_conf _ pre post h hpre'
        (key_matches_true location_conf h hh)]
    · constructor
      · intro hrc
        have hne : NGX_OK ≠ NGX_DECLINED := by decide
        exact absurd hrc hne
      · intro hall
        exact absurd hh (hall h (by rw [hsplit]; simp))
    · exact Or.inl ⟨pre, h, post, hsplit, hpre, hh, rfl⟩
  · refine ⟨{ rc := NGX_DECLINED, token := token }, ?_, ?_, ?_⟩
    · rw [search_part_none location_conf _ _ (fun x hx => hfalse x hx (hnone x hx))]
    · exact ⟨fun _ => hnone, fun _ => rfl⟩
    · exact Or.inr ⟨hnone, rfl⟩

/-- Four header lines in two list parts, the third and fourth named
`X-Auth-Token`: the value `abc123` of the third is returned. -/
theorem search_headers_first_match_witness :
    two_part_request.headers_in.headers.linked ∧
    0 ∈ header_conf.header_name.data ∧
    (∀ h ∈ two_part_request.headers_in.headers.toList, h.key.in_bounds) ∧
    search_headers two_part_request header_conf unset
      = .ok ({ rc := NGX_OK, token := ngx_string "abc123" }, two_part_request) ∧
    ∃ res, search_headers two_part_request header_conf unset = .ok (res, two_part_request) ∧
      (res.rc = NGX_DECLINED ↔
        ∀ x ∈ two_part_request.headers_in.headers.toList, ¬ compares_equal header_conf x) ∧
      ((∃ pre h post, two_part_request.headers_in.headers.toList = pre ++ h :: post ∧
          (∀ x ∈ pre, ¬ compares_equal header_conf x) ∧
          compares_equal header_conf h ∧
          res = { rc := NGX_OK, token := { len := h.value.len, data := h.value.data } }) ∨
       ((∀ x ∈ two_part_request.headers_in.headers.toList, ¬ compares_equal header_conf x) ∧
          res = { rc := NGX_DECLINED, token := unset })) :=
  ⟨by decide, by decide, by decide, by decide,
    search_headers_first_match two_part_request header_conf unset
      (by decide) (by decide) (by decide)⟩

/-- C10 (amended).  The comparison runs over the candidate key's own length
against the configured, zero ended header name.  So an entry compares equal exactly
when its key is a prefix of the configured name: a header whose name is a front part
of the configured name (such as `X-Auth` for the configured `X-Auth-Token`) is
matched and, when no earlier entry matches, its value is returned as the token, while
headers whose names have the configured name as a proper prefix are not matched
(`NGX_DECLINED` when the request has no other headers). -/
theorem search_headers_key_prefix_of_name (r : ngx_http_request_t)
    (location_conf : auth_token_loc_conf_t) (token : ngx_str_t)
    (hl : r.headers_in.headers.linked)
    (hn : location_conf.header_name.terminated)
    (hk : ∀ h ∈ r.headers_in.headers.toList, h.key.in_bounds ∧ 0 ∉ h.key.val) :
    (∀ h ∈ r.headers_in.headers.toList,
      (compares_equal location_conf h ↔ h.key.val <+: location_conf.header_name.val)) ∧
    (∀ pre h post, r.headers_in.headers.toList = pre ++ h :: post →
      (∀ x ∈ pre, ¬ x.key.val <+: location_conf.header_name.val) →
      h.key.val <+: location_conf.header_name.val →
      search_headers r location_conf token
        = .ok ({ rc := NGX_OK, token := { len := h.value.len, data := h.value.data } }, r)) ∧
    ((∀ x ∈ r.headers_in.headers.toList,
        location_conf.header_name.val <+: x.key.val ∧
        x.key.val ≠ location_conf.header_name.val) →
      search_headers r location_conf token
        = .ok ({ rc := NGX_DECLINED, token := token }, r)) := by
  have hiff : ∀ h ∈ r.headers_in.headers.toList,
      (compares_equal location_conf h ↔ h.key.val <+: location_conf.header_name.val) := by
    intro h hh
    have e := terminated_split _ hn
    unfold compares_equal
    rw [e]
    exact ngx_strncmp_eq_zero_iff h.key.len h.key.data _ _ (hk h hh).1 (hk h hh).2 hn.2
  have h0 : 0 ∈ location_conf.header_name.data := by
    rw [terminated_split _ hn]; simp
  have hfalse : ∀ x ∈ r.headers_in.headers.toList,
      ¬ x.key.val <+: location_conf.header_name.val →
      key_matches location_conf x = .ok false := by
    intro x hx hm
    rcases key_matches_defined location_conf x h0 (hk x hx).1 with h | h
    · exact absurd ((hiff x hx).mp ((key_matches_true_iff location_conf x).mp h)) hm
    · exact h
  refine ⟨hiff, ?_, ?_⟩
  · intro pre h post hsplit hpre hh
    have hmem : h ∈ r.headers_in.headers.toList := by rw [hsplit]; simp
    have hpre' : ∀ x ∈ pre, key_matches location_conf x = .ok false := by
      intro x hx
      exact hfalse x (by rw [hsplit]; exact List.mem_append_left _ hx) (hpre x hx)
    rw [search_headers_flat r location_conf token hl, hsplit,
      search_part_first location_conf _ pre post h hpre'
        (key_matches_true location_conf h ((hiff h hmem).mpr hh))]
  · intro hall
    have hnone : ∀ x ∈ r.headers_in.headers.toList,
        key_matches location_conf x = .ok false := by
      intro x hx
      apply hfalse x hx
      intro hpre
      obtain ⟨h1, h2⟩ := hall x hx
      exact h2 (List.IsPrefix.eq_of_length_le hpre (List.IsPrefix.length_le h1))
    rw [search_headers_flat r location_conf token hl,
      search_part_none location_conf _ _ hnone]

/-- With `X-Auth-Token` configured, the header `X-Auth: abc123` is matched and its
value returned; with `X-Auth` configured, the header `X-Auth-Token` is not. -/
theorem search_headers_key_prefix_of_name_witness :
    search_headers short_key_request header_conf unset
      = .ok ({ rc := NGX_OK, token := ngx_string "abc123" }, short_key_request) ∧
    search_headers long_key_request long_key_request.loc_conf unset
      = .ok ({ rc := NGX_DECLINED, token := unset }, long_key_request) :=
  ⟨(search_headers_key_prefix_of_name short_key_request header_conf unset
      (by decide) (by decide) (by decide)).2.1
      [] (header_line "X-Auth" "abc123") [] (by decide) (by decide) (by decide),
   (search_headers_key_prefix_of_name long_key_request long_key_request.loc_conf unset
      (by decide) (by decide) (by decide)).2.2 (by decide)⟩

/-- C10 fails as stated: with the configured name `X-Auth` and the single request
header `X-Auth-Token: abc123`, whose key has the configured name as a proper prefix,
`search_headers` matches nothing and returns `NGX_DECLINED`. -/
theorem search_headers_name_prefix_of_key_declined :
    long_key_request.loc_conf.header_name.val = bytes "X-Auth" ∧
    long_key_request.headers_in.headers.toList = [header_line "X-Auth-Token" "abc123"] ∧
    long_key_request.loc_conf.header_name.val
      <+: (header_line "X-Auth-Token" "abc123").key.val ∧
    long_key_request.loc_conf.header_name.val
      ≠ (header_line "X-Auth-Token" "abc123").key.val ∧
    ¬ compares_equal long_key_request.loc_conf (header_line "X-Auth-Token" "abc123") ∧
    search_headers long_key_request long_key_request.loc_conf unset
      = .ok ({ rc := NGX_DECLINED, token := unset }, long_key_request) := by
  decide

end AuthToken
